import Mathlib

/-!
Verification of the High-Evals eval execution engine (`main.go`) against its
natural-language specification.  The Go functions the claims mention are
shallowly embedded below: pure string functions are translated directly,
stateful or effectful surroundings (HTTP, processes, terminal forms, package
level variables) are made explicit as parameters or returned values.
Go strings are modelled as Lean `String`/`List Char`; the Unicode classifier
functions (`unicode.IsLetter`, `unicode.IsSpace`, `strings.ToLower`) are
modelled faithfully on the ASCII range, the only range any claim touches.
-/

namespace HighEvals

/-- Character model of Go's `unicode.IsSpace` on the ASCII range:
space, `\t`, `\n`, vertical tab, form feed, `\r`. -/
def isGoSpace (c : Char) : Bool :=
  c = ' ' || c = '\t' || c = '\n' || c = Char.ofNat 11 || c = Char.ofNat 12 || c = '\r'

/-- `strings.TrimSpace` on char lists: drop whitespace from both ends. -/
def trimSpaceList (cs : List Char) : List Char :=
  ((cs.dropWhile isGoSpace).reverse.dropWhile isGoSpace).reverse

/-- `strings.TrimSpace`. -/
def goTrimSpace (s : String) : String :=
  String.mk (trimSpaceList s.toList)

/-- `strings.ToLower` (ASCII-faithful: `Char.toLower` lowers exactly `A`-`Z`). -/
def goToLower (s : String) : String :=
  String.mk (s.toList.map Char.toLower)

/-- Does `needle` occur contiguously inside the first list?
Models `strings.Contains hay needle`. -/
def containsList : List Char → List Char → Bool
  | _, [] => true
  | [], _ :: _ => false
  | c :: rest, needle => needle.isPrefixOf (c :: rest) || containsList rest needle

/-- `strings.Contains`. -/
def strContains (s sub : String) : Bool :=
  containsList s.toList sub.toList

/-- `isTransientEvalError` from `main.go` (lines 2300-2307), translated verbatim:
empty message is not transient; otherwise membership of one of three substrings
(`"no agent activity for"`, `"event stream error:"`,
`"agent did not reach idle state"`). -/
def isTransientEvalError (errMsg : String) : Bool :=
  if errMsg = "" then false
  else
    strContains errMsg "no agent activity for" ||
    strContains errMsg "event stream error:" ||
    strContains errMsg "agent did not reach idle state"

/-- The transient test exactly as claim C2 words it: the first two substrings
carry a trailing space. -/
def claimedTransientSubstrings (m : String) : Bool :=
  strContains m "no agent activity for " ||
  strContains m "event stream error: " ||
  strContains m "agent did not reach idle state"

/-- C2 fails as stated: `"no agent activity for"` (no trailing space) is
classified transient by the code yet contains none of the three substrings the
claim lists. -/
theorem C2_counterexample :
    ¬ (isTransientEvalError "no agent activity for" = true ↔
       claimedTransientSubstrings "no agent activity for" = true) := by
  decide

/-- C2 (amended): `isTransientEvalError m` is true exactly when `m` contains
`"no agent activity for"`, `"event stream error:"` or
`"agent did not reach idle state"` — without trailing spaces on the first two —
and the five sample inputs behave as listed. -/
theorem C2_transient_classifier :
    (∀ m : String,
      isTransientEvalError m = true ↔
        (strContains m "no agent activity for" = true ∨
         strContains m "event stream error:" = true ∨
         strContains m "agent did not reach idle state" = true)) ∧
    isTransientEvalError "no agent activity for 180s" = true ∧
    isTransientEvalError "event stream error: X" = true ∧
    isTransientEvalError "agent did not reach idle state" = true ∧
    isTransientEvalError "HTTP 401" = false ∧
    isTransientEvalError "" = false := by
  refine ⟨?_, by decide, by decide, by decide, by decide, by decide⟩
  intro m
  by_cases h : m = ""
  · subst h; decide
  · simp [isTransientEvalError, h, Bool.or_eq_true, or_assoc]

/-- `applyRuntimeOptions` from `main.go` (lines 2309-2319).  Go assigns the two
package-level variables `inactivityTimeout` and `transientRetries`; modelled as
the returned pair (timeout in seconds, retry count).  The fallback constants
are `defaultInactivityTimeout = 180 s` and `defaultTransientRetries = 1`. -/
def applyRuntimeOptions (timeoutSeconds retries : Int) : Int × Int :=
  ((if timeoutSeconds < 1 then 180 else timeoutSeconds),
   (if retries < 0 then 1 else retries))

/-- C9 fails as stated: a below-floor input is not raised to the floor
(1 s / 0 retries) — at input (0, -1) the code applies the defaults (180, 1). -/
theorem C9_counterexample :
    ¬ ((applyRuntimeOptions 0 (-1)).1 = 1 ∧ (applyRuntimeOptions 0 (-1)).2 = 0) := by
  decide

/-- C9 (amended): the applied timeout is never below 1 s and the applied retry
count never below 0, but a below-floor input is replaced by the default
(180 s, resp. 1 retry), not raised to the floor; in-range inputs pass through. -/
theorem C9_runtime_floors :
    ∀ t r : Int,
      1 ≤ (applyRuntimeOptions t r).1 ∧ 0 ≤ (applyRuntimeOptions t r).2 ∧
      (t < 1 → (applyRuntimeOptions t r).1 = 180) ∧
      (1 ≤ t → (applyRuntimeOptions t r).1 = t) ∧
      (r < 0 → (applyRuntimeOptions t r).2 = 1) ∧
      (0 ≤ r → (applyRuntimeOptions t r).2 = r) := by
  intro t r
  simp only [applyRuntimeOptions]
  split_ifs with h1 h2 <;> refine ⟨by omega, by omega, ?_, ?_, ?_, ?_⟩ <;> intro h <;> omega

/-- Concrete instance of `C9_runtime_floors`: input (0, -1) yields the
defaults (180, 1). -/
theorem C9_runtime_floors_witness :
    (applyRuntimeOptions 0 (-1)).1 = 180 ∧ (applyRuntimeOptions 0 (-1)).2 = 1 :=
  ⟨(C9_runtime_floors 0 (-1)).2.2.1 (by decide),
   (C9_runtime_floors 0 (-1)).2.2.2.2.1 (by decide)⟩

/-- In-memory eval result (`EvalResult` struct in `main.go`, lines 62-69).
`Duration` is `time.Duration` in Go, modelled in nanoseconds. -/
structure EvalResult where
  Prompt : String
  PromptNumber : Int
  Folder : String
  Success : Bool
  Error : String
  Duration : Int
deriving Repr, DecidableEq

/-- The Go zero value of `EvalResult` (what `make([]EvalResult, n)` fills
slots with before they are assigned). -/
def evalResultZero : EvalResult :=
  ⟨"", 0, "", false, "", 0⟩

/-- Verdict composition in `runAgent` (`main.go` lines 2073-2078): on the path
that reaches the Completion Tracker, `result.Error` is still the zero value and
the tracker verdict `(completed, errMsg)` is folded into the result. -/
def composeVerdict (completed : Bool) (errMsg : String) (r : EvalResult) : EvalResult :=
  let r1 := { r with Success := completed && (errMsg == "") }
  if errMsg ≠ "" then { r1 with Error := errMsg }
  else if !completed then { r1 with Error := "agent did not reach idle state" }
  else r1

/-- C6: the composed result has `Success = true` exactly when the tracker
reported `completed` with an empty error message; and an incomplete run with an
empty message gets the error `"agent did not reach idle state"`. -/
theorem C6_verdict_composition :
    ∀ (completed : Bool) (errMsg : String) (r : EvalResult),
      ((composeVerdict completed errMsg r).Success = true ↔
        (completed = true ∧ errMsg = "")) ∧
      (completed = false → errMsg = "" →
        (composeVerdict completed errMsg r).Error = "agent did not reach idle state") := by
  intro completed errMsg r
  by_cases h : errMsg = ""
  · subst h
    cases completed <;> simp [composeVerdict]
  · cases completed <;> simp [composeVerdict, h]

/-- Concrete instance of `C6_verdict_composition`: an incomplete verdict with
empty message is composed into the synthesized idle-state error. -/
theorem C6_verdict_composition_witness :
    (composeVerdict false "" evalResultZero).Error = "agent did not reach idle state" :=
  (C6_verdict_composition false "" evalResultZero).2 rfl rfl

/-! ### Model-identifier sanitization (claim C4) -/

/-- `normalizeModelID` from `main.go` (lines 1718-1726): empty stays empty, a
string with a `/` is unchanged, anything else gets the `openrouter/` prefix. -/
def normalizeModelID (model : String) : String :=
  if model = "" then ""
  else if strContains model "/" then model
  else "openrouter/" ++ model

/-- The character class kept verbatim by `sanitizeModelForFolder`:
ASCII `a`-`z`, `0`-`9`, `-`, `_`, `.`. -/
def isFolderKeepChar (r : Char) : Bool :=
  ('a' ≤ r && r ≤ 'z') || ('0' ≤ r && r ≤ '9') || r = '-' || r = '_' || r = '.'

/-- The rune loop of `sanitizeModelForFolder` (lines 1744-1759): kept
characters pass through, each run of other characters contributes a single
dash, tracked by the `prevDash` flag. -/
def sanitizeScan : Bool → List Char → List Char
  | _, [] => []
  | prevDash, r :: rest =>
    if isFolderKeepChar r then r :: sanitizeScan false rest
    else if prevDash then sanitizeScan true rest
    else '-' :: sanitizeScan true rest

/-- Membership of the Go cutset string `"-_."` used by `strings.Trim` and
`strings.TrimRight` in `sanitizeModelForFolder`. -/
def isTrimCutChar (c : Char) : Bool :=
  c = '-' || c = '_' || c = '.'

/-- `strings.TrimRight` with a character-class cutset. -/
def trimRightBy (p : Char → Bool) (cs : List Char) : List Char :=
  (cs.reverse.dropWhile p).reverse

/-- `strings.Trim` with a character-class cutset (left trim then right trim). -/
def trimBy (p : Char → Bool) (cs : List Char) : List Char :=
  trimRightBy p (cs.dropWhile p)

/-- `sanitizeModelForFolder` from `main.go` (lines 1736-1775), translated
verbatim: whitespace-trim, model-ID-normalize and lowercase the input, then
keep-or-coalesce characters, trim the `-_.` cutset from both ends, cap at 64
(bytes in Go; the scan output is pure ASCII so characters coincide) with a
right retrim, with `"unknown-model"` for every empty intermediate. -/
def sanitizeModelForFolder (model : String) : String :=
  let m := goToLower (normalizeModelID (goTrimSpace model))
  if m = "" then "unknown-model"
  else
    let sanitized := trimBy isTrimCutChar (sanitizeScan false m.toList)
    if sanitized = [] then "unknown-model"
    else if 64 < sanitized.length then
      let truncated := trimRightBy isTrimCutChar (sanitized.take 64)
      if truncated = [] then "unknown-model" else String.mk truncated
    else String.mk sanitized

/-- Modelled from claim C4's words: coalesce each maximal run of non-kept
characters into a single `'-'` (the dash is emitted at the last character of
each run, which keeps the recursion structural). -/
def coalesceRuns : List Char → List Char
  | [] => []
  | [c] => if isFolderKeepChar c then [c] else ['-']
  | c :: d :: rest =>
    if isFolderKeepChar c then c :: coalesceRuns (d :: rest)
    else if isFolderKeepChar d then '-' :: coalesceRuns (d :: rest)
    else coalesceRuns (d :: rest)

/-- Modelled from claim C4's words: lowercase, keep `[a-z0-9._-]`, coalesce
other runs to a dash, trim leading/trailing `-_.`, truncate to 64 characters
then retrim, empty result becomes `"unknown-model"`. -/
def sanitizeSpecPipeline (m : String) : String :=
  let collapsed := trimBy isTrimCutChar (coalesceRuns (goToLower m).toList)
  let capped :=
    if 64 < collapsed.length then trimBy isTrimCutChar (collapsed.take 64) else collapsed
  if capped = [] then "unknown-model" else String.mk capped

/-- C4 fails as stated: the code first normalizes the model identifier, so
`"glm-5"` is sanitized as `"openrouter-glm-5"`, not as the claimed pipeline's
`"glm-5"` (the repository's own unit test asserts the former). -/
theorem C4_counterexample :
    ¬ (sanitizeModelForFolder "glm-5" = sanitizeSpecPipeline "glm-5") := by
  decide

/-- The two coalescing renderings agree: the source's `prevDash` scan equals
the run-based description. -/
theorem sanitizeScan_eq_coalesceRuns (cs : List Char) :
    sanitizeScan false cs = coalesceRuns cs := by
  induction cs with
  | nil => rfl
  | cons c rest ih =>
    cases rest with
    | nil =>
      by_cases hc : isFolderKeepChar c <;> simp [sanitizeScan, coalesceRuns, hc]
    | cons d t =>
      by_cases hc : isFolderKeepChar c
      · simpa [sanitizeScan, coalesceRuns, hc] using ih
      · by_cases hd : isFolderKeepChar d <;>
          simp [sanitizeScan, coalesceRuns, hc, hd, ← ih]

/-- The head of a `dropWhile` result never satisfies the dropped predicate. -/
theorem dropWhile_head_false {p : Char → Bool} :
    ∀ {cs : List Char} {a : Char} {s : List Char}, cs.dropWhile p = a :: s → p a = false := by
  intro cs a s h
  have h2 := List.head?_dropWhile_not p cs
  rw [h] at h2
  simpa using h2

/-- A nonempty right-trim keeps the head of the original list. -/
theorem trimRightBy_head? {p : Char → Bool} (cs : List Char) (h : trimRightBy p cs ≠ []) :
    (trimRightBy p cs).head? = cs.head? := by
  have hpre : trimRightBy p cs <+: cs := by
    have hsuf : cs.reverse.dropWhile p <:+ cs.reverse := List.dropWhile_suffix p
    have := hsuf.reverse
    rwa [List.reverse_reverse] at this
  obtain ⟨t, ht⟩ := hpre
  cases htr : trimRightBy p cs with
  | nil => exact absurd htr h
  | cons a s =>
    rw [htr] at ht
    rw [← ht]
    simp

/-- The head of a nonempty two-sided trim never satisfies the trimmed
predicate. -/
theorem trimBy_head_false {p : Char → Bool} {cs : List Char} {a : Char} {s : List Char}
    (h : trimBy p cs = a :: s) : p a = false := by
  have hne : trimRightBy p (cs.dropWhile p) ≠ [] := by
    rw [show trimRightBy p (cs.dropWhile p) = trimBy p cs from rfl, h]
    simp
  have h1 : (trimRightBy p (cs.dropWhile p)).head? = (cs.dropWhile p).head? :=
    trimRightBy_head? _ hne
  rw [show trimRightBy p (cs.dropWhile p) = trimBy p cs from rfl, h] at h1
  cases hd : cs.dropWhile p with
  | nil => rw [hd] at h1; simp at h1
  | cons b t =>
    rw [hd] at h1
    simp at h1
    rw [h1]
    exact dropWhile_head_false hd

/-- The code's sanitizer equals the claim's pipeline applied after
whitespace-trimming and model-ID normalization. -/
theorem sanitize_eq_pipeline (m : String) :
    sanitizeModelForFolder m = sanitizeSpecPipeline (normalizeModelID (goTrimSpace m)) := by
  simp only [sanitizeModelForFolder, sanitizeSpecPipeline]
  rw [sanitizeScan_eq_coalesceRuns]
  by_cases hm : goToLower (normalizeModelID (goTrimSpace m)) = ""
  · rw [hm]
    decide
  · rw [if_neg hm]
    generalize hS :
      trimBy isTrimCutChar (coalesceRuns (goToLower (normalizeModelID (goTrimSpace m))).toList) = S
    by_cases hSnil : S = []
    · subst hSnil
      decide
    · rw [if_neg hSnil]
      by_cases hlen : 64 < S.length
      · simp only [if_pos hlen]
        obtain ⟨a, s, hcons⟩ : ∃ a s, S = a :: s := by
          cases hc : S with
          | nil => exact absurd hc hSnil
          | cons a s => exact ⟨a, s, rfl⟩
        have hpa : isTrimCutChar a = false := trimBy_head_false (hS.trans hcons)
        have htake : S.take 64 = a :: s.take 63 := by
          rw [hcons]
          rfl
        have heq : trimBy isTrimCutChar (S.take 64) = trimRightBy isTrimCutChar (S.take 64) := by
          show trimRightBy isTrimCutChar ((S.take 64).dropWhile isTrimCutChar) = _
          rw [htake, List.dropWhile_cons, hpa]
          simp
        rw [← heq]
      · simp only [if_neg hlen, if_neg hSnil]

/-- C4 (amended): `sanitizeModelForFolder` equals the claimed
lowercase/keep/coalesce/trim/truncate pipeline applied after first
whitespace-trimming the input and normalizing the model identifier
(prefixing `openrouter/` when the trimmed input is nonempty and has no `/`);
the claim's worked example still holds. -/
theorem C4_sanitize_model_folder :
    (∀ m : String,
      sanitizeModelForFolder m = sanitizeSpecPipeline (normalizeModelID (goTrimSpace m))) ∧
    sanitizeModelForFolder "  OpenRouter/Model:Name  " = "openrouter-model-name" :=
  ⟨sanitize_eq_pipeline, by decide⟩

/-! ### Pinning saved models (claim C8) -/

/-- `isSavedModel` from `main.go` (lines 1519-1525).  The Go saved set is a
`map[string]struct` built from the saved-models list; modelled as the list of
its keys with decidable membership. -/
def isSavedModel (savedSet : List String) (model : String) : Bool :=
  if savedSet.length = 0 then false
  else model ∈ savedSet

/-- `pinSavedModels` from `main.go` (lines 1527-1543): two accumulators are
grown by a single pass (saved models into `pinned`, the rest into `others`)
and concatenated.  The Go `for ... append` loop is the fold below. -/
def pinSavedModels (models : List String) (savedSet : List String) : List String :=
  if models.length = 0 ∨ savedSet.length = 0 then models
  else
    let pair := models.foldl
      (fun (acc : List String × List String) model =>
        if isSavedModel savedSet model then (acc.1 ++ [model], acc.2)
        else (acc.1, acc.2 ++ [model]))
      ([], [])
    pair.1 ++ pair.2

/-- The append-fold of `pinSavedModels` is the stable two-way partition. -/
theorem pin_fold_eq_filter (savedSet : List String) (models : List String) :
    ∀ acc : List String × List String,
      models.foldl
        (fun (acc : List String × List String) model =>
          if isSavedModel savedSet model then (acc.1 ++ [model], acc.2)
          else (acc.1, acc.2 ++ [model]))
        acc =
      (acc.1 ++ models.filter (fun model => isSavedModel savedSet model),
       acc.2 ++ models.filter (fun model => !isSavedModel savedSet model)) := by
  induction models with
  | nil => intro acc; simp
  | cons m rest ih =>
    intro acc
    by_cases hm : isSavedModel savedSet m <;>
      simp [List.foldl_cons, List.filter_cons, hm, ih]

/-- C8: `pinSavedModels` returns the saved elements of the input, in input
order, followed by the unsaved elements, in input order — in particular a
permutation of the input. -/
theorem C8_pin_saved_models :
    ∀ (models savedSet : List String),
      pinSavedModels models savedSet =
        models.filter (fun model => isSavedModel savedSet model) ++
        models.filter (fun model => !isSavedModel savedSet model) ∧
      (pinSavedModels models savedSet).Perm models := by
  intro models savedSet
  have key : pinSavedModels models savedSet =
      models.filter (fun model => isSavedModel savedSet model) ++
      models.filter (fun model => !isSavedModel savedSet model) := by
    unfold pinSavedModels
    by_cases hguard : models.length = 0 ∨ savedSet.length = 0
    · rw [if_pos hguard]
      rcases hguard with hmod | hsav
      · rw [List.length_eq_zero] at hmod
        subst hmod
        simp
      · have hfalse : ∀ model, isSavedModel savedSet model = false := by
          intro model
          unfold isSavedModel
          rw [if_pos hsav]
        simp [hfalse]
    · rw [if_neg hguard]
      rw [pin_fold_eq_filter savedSet models ([], [])]
      simp
  exact ⟨key, key ▸ List.filter_append_perm _ models⟩

/-! ### Fuzzy model filtering (claim C10) -/

/-- Character class used by the search helpers: `unicode.IsLetter(r) ||
unicode.IsDigit(r)`, ASCII-faithful. -/
def isSearchAlnum (r : Char) : Bool :=
  r.isAlpha || r.isDigit

/-- `normalizeForSearch` from `main.go` (lines 1663-1672): lowercase, keep only
letters and digits. -/
def normalizeForSearch (s : String) : String :=
  String.mk ((goToLower s).toList.filter isSearchAlnum)

/-- Accumulator pass of `strings.FieldsFunc`: collect maximal alphanumeric
runs, dropping empty fields. -/
def fieldsAux (acc : List Char) : List Char → List (List Char)
  | [] => if acc = [] then [] else [acc.reverse]
  | c :: rest =>
    if isSearchAlnum c then fieldsAux (c :: acc) rest
    else if acc = [] then fieldsAux [] rest
    else acc.reverse :: fieldsAux [] rest

/-- `splitSearchTokens` from `main.go` (lines 1674-1678): fields of the
lowercased string split on non-alphanumerics. -/
def splitSearchTokens (s : String) : List String :=
  (fieldsAux [] (goToLower s).toList).map String.mk

/-- Inner walk of `isSubsequence` (lines 1685-1695): advance through the
target, consuming query runes on equality. -/
def isSubseqAux : List Char → List Char → Bool
  | [], _ => true
  | _ :: _, [] => false
  | q :: qs, t :: ts => if q = t then isSubseqAux qs ts else isSubseqAux (q :: qs) ts

/-- `isSubsequence` from `main.go` (lines 1680-1696). -/
def isSubsequence (query target : String) : Bool :=
  if query = "" then true
  else isSubseqAux query.toList target.toList

/-- `strings.Index`: position of the first occurrence of `needle`, `none` for
Go's `-1`. -/
def indexOfSub (needle : List Char) : List Char → Option Nat
  | [] => if needle.isPrefixOf ([] : List Char) then some 0 else none
  | c :: t =>
    if needle.isPrefixOf (c :: t) then some 0
    else
      match indexOfSub needle t with
      | none => none
      | some i => some (i + 1)

/-- State of the token loop in `scoreModelMatch` (lines 1628-1647). -/
structure TokenLoopState where
  tokenHits : Nat
  tokenScore : Nat
  searchPos : Nat
  ordered : Bool
deriving Repr, DecidableEq

/-- One iteration of the token loop of `scoreModelMatch`: a contained token
scores 20, and the in-order walk advances `searchPos` past the token's next
occurrence or clears `ordered`. -/
def tokenStep (lowerModel : List Char) (st : TokenLoopState) (token : List Char) :
    TokenLoopState :=
  let st1 :=
    if containsList lowerModel token then
      { st with tokenHits := st.tokenHits + 1, tokenScore := st.tokenScore + 20 }
    else st
  if st1.ordered then
    match indexOfSub token (lowerModel.drop st1.searchPos) with
    | none => { st1 with ordered := false }
    | some next => { st1 with searchPos := st1.searchPos + next + token.length }
  else st1

/-- `scoreModelMatch` from `main.go` (lines 1601-1661), with the sequential
`score`/`matched` mutations linearized; the score only ever grows, so it is a
`Nat`. -/
def scoreModelMatch (model lowerQuery normalizedQuery : String)
    (queryTokens : List String) : Nat × Bool :=
  let lowerModel := goToLower model
  let normalizedModel := normalizeForSearch model
  let s1 : Nat × Bool :=
    if lowerQuery ≠ "" ∧ strContains lowerModel lowerQuery then (140, true) else (0, false)
  let s2 : Nat × Bool :=
    if normalizedQuery ≠ "" then
      let a := if strContains normalizedModel normalizedQuery then (s1.1 + 120, true) else s1
      let b :=
        if normalizedQuery.toList.isPrefixOf normalizedModel.toList then (a.1 + 30, a.2) else a
      if isSubsequence normalizedQuery normalizedModel then (b.1 + 50, true) else b
    else s1
  let tl := queryTokens.foldl
    (fun st token => tokenStep lowerModel.toList st token.toList) ⟨0, 0, 0, true⟩
  if 0 < tl.tokenHits then
    let s3 : Nat × Bool := (s2.1 + tl.tokenScore, true)
    if tl.tokenHits = queryTokens.length then
      let s4 : Nat × Bool := (s3.1 + 40, s3.2)
      if tl.ordered ∧ 1 < queryTokens.length then (s4.1 + 20, s4.2) else s4
    else s3
  else s2

/-- The `sort.Slice` comparator of `filterModels` (lines 1586-1591): score
descending, ties broken by model ascending. -/
def scoredLess (a b : String × Nat) : Bool :=
  if a.2 = b.2 then decide (a.1 < b.1) else decide (b.2 < a.2)

/-- Ordered insertion for the model of `sort.Slice`. -/
def insertScored (x : String × Nat) : List (String × Nat) → List (String × Nat)
  | [] => [x]
  | y :: ys => if scoredLess x y then x :: y :: ys else y :: insertScored x ys

/-- `sort.Slice` modelled as insertion sort with the same comparator.  The
comparator is total and antisymmetric up to equality of entries, so every
correct sort of the scored slice produces the same list. -/
def sortScored : List (String × Nat) → List (String × Nat)
  | [] => []
  | x :: xs => insertScored x (sortScored xs)

/-- `filterModels` from `main.go` (lines 1563-1599): blank queries pass the
input through; otherwise candidates are scored, non-matches dropped, and the
matches sorted by the comparator above. -/
def filterModels (models : List String) (query : String) : List String :=
  if goTrimSpace query = "" then models
  else
    let trimmed := goTrimSpace query
    let lowerQuery := goToLower trimmed
    let normalizedQuery := normalizeForSearch trimmed
    let queryTokens := splitSearchTokens trimmed
    let scored := models.filterMap (fun model =>
      let sm := scoreModelMatch model lowerQuery normalizedQuery queryTokens
      if sm.2 then some (model, sm.1) else none)
    (sortScored scored).map Prod.fst

/-- Insertion keeps the multiset of entries. -/
theorem insertScored_perm (x : String × Nat) (l : List (String × Nat)) :
    (insertScored x l).Perm (x :: l) := by
  induction l with
  | nil => exact List.Perm.refl _
  | cons y ys ih =>
    by_cases h : scoredLess x y
    · simp [insertScored, h]
    · simp only [insertScored, if_neg h]
      exact (ih.cons y).trans (List.Perm.swap x y ys)

/-- The modelled sort permutes its input. -/
theorem sortScored_perm (l : List (String × Nat)) : (sortScored l).Perm l := by
  induction l with
  | nil => exact List.Perm.refl _
  | cons x xs ih =>
    exact (insertScored_perm x (sortScored xs)).trans (ih.cons x)

/-- C10: a whitespace-blank query returns the model list unchanged, and every
returned model is drawn from the input list. -/
theorem C10_filter_models :
    (∀ (models : List String) (query : String),
      goTrimSpace query = "" → filterModels models query = models) ∧
    (∀ (models : List String) (query : String) (m : String),
      m ∈ filterModels models query → m ∈ models) := by
  constructor
  · intro models query h
    unfold filterModels
    rw [if_pos h]
  · intro models query m hm
    unfold filterModels at hm
    by_cases h : goTrimSpace query = ""
    · rwa [if_pos h] at hm
    · rw [if_neg h] at hm
      simp only [List.mem_map] at hm
      obtain ⟨p, hp, hpm⟩ := hm
      have hp2 := (sortScored_perm _).mem_iff.mp hp
      simp only [List.mem_filterMap] at hp2
      obtain ⟨model, hmem, hsome⟩ := hp2
      by_cases hmatch :
          (scoreModelMatch model (goToLower (goTrimSpace query))
            (normalizeForSearch (goTrimSpace query))
            (splitSearchTokens (goTrimSpace query))).2 = true
      · rw [if_pos hmatch] at hsome
        obtain rfl : model = p.1 := by
          cases hsome
          rfl
        rwa [← hpm]
      · rw [if_neg hmatch] at hsome
        exact absurd hsome (by simp)

/-- Concrete instance of `C10_filter_models`: a blank query passes the list
through, and a matched model comes from the input list. -/
theorem C10_filter_models_witness :
    filterModels ["openrouter/glm-5"] " " = ["openrouter/glm-5"] ∧
    "openrouter/glm-5" ∈ ["openrouter/glm-5"] :=
  ⟨C10_filter_models.1 ["openrouter/glm-5"] " " (by decide),
   C10_filter_models.2 ["openrouter/glm-5"] "glm" "openrouter/glm-5" (by decide)⟩

/-! ### Completion Tracker stream handling (claims C1, C7) -/

/-- A decoded JSON value: the shapes `encoding/json` stores in the
`map[string]interface` property bag of an `Event`. -/
inductive JsonVal where
  | str (s : String)
  | num (n : Int)
  | boolVal (b : Bool)
  | null
  | arr (xs : List JsonVal)
  | obj (fields : List (String × JsonVal))

/-- Key lookup in a decoded JSON object (Go's `m["key"]` with presence flag). -/
def lookupProp : List (String × JsonVal) → String → Option JsonVal
  | [], _ => none
  | (k, v) :: rest, key => if k = key then some v else lookupProp rest key

/-- The `Event` struct from `main.go` (lines 79-82). -/
structure Event where
  type : String
  properties : List (String × JsonVal)

/-- Mutable state of `waitForCompletion` (lines 2151-2154): the completed
flag, the error message and the last-activity timestamp (monotonic clock,
modelled as a `Nat`). -/
structure TrackerState where
  completed : Bool
  errorMsg : String
  lastActivity : Nat
deriving Repr, DecidableEq

/-- Outcome of one loop iteration: keep reading with an updated state, or
return the terminal verdict `(completed, errMsg)`. -/
inductive StepResult where
  | next (st : TrackerState)
  | finished (completed : Bool) (errMsg : String)
deriving Repr, DecidableEq

/-- Models `fmt.Sprintf("%v", errVal)`, the last resort of
`extractErrorMessage`.  No claim depends on the exact rendering of compound
values, so containers are rendered with a fixed placeholder. -/
def stringifyGoValue : JsonVal → String
  | .str s => s
  | .num n => toString n
  | .boolVal b => if b then "true" else "false"
  | .null => "<nil>"
  | .arr _ => "[...]"
  | .obj _ => "map[...]"

/-- `extractErrorMessage` from `main.go` (lines 2321-2341): try
`error.data.message`, then `error.message`, then `error.name`, then a bare
string, then the stringified value. -/
def extractErrorMessage (errVal : JsonVal) : String :=
  let fromMap : Option String :=
    match errVal with
    | .obj fields =>
      let dataMsg : Option String :=
        match lookupProp fields "data" with
        | some (.obj dataFields) =>
          match lookupProp dataFields "message" with
          | some (.str msg) => some msg
          | _ => none
        | _ => none
      match dataMsg with
      | some msg => some msg
      | none =>
        match lookupProp fields "message" with
        | some (.str msg) => some msg
        | _ =>
          match lookupProp fields "name" with
          | some (.str name) => some name
          | _ => none
    | _ => none
  match fromMap with
  | some msg => msg
  | none =>
    match errVal with
    | .str s => s
    | _ => stringifyGoValue errVal

/-- The per-event dispatch of `waitForCompletion` (lines 2216-2280):
`server.`-prefixed types are skipped, an event carrying a *string*
`sessionID` different from the adopted one is skipped, and the switch
classifies the rest (`session.idle` and `session.status`/`idle` terminate
with success, `session.error` with failure, everything else reads on). -/
def dispatchEvent (sessionID : String) (st : TrackerState) (event : Event) : StepResult :=
  if ("server.".toList).isPrefixOf (event.type).toList then .next st
  else
    let skip : Bool :=
      match lookupProp event.properties "sessionID" with
      | some (.str sid) => sid ≠ sessionID
      | _ => false
    if skip then .next st
    else if event.type = "session.idle" then
      .finished true ""
    else if event.type = "session.status" then
      match lookupProp event.properties "status" with
      | some (.obj statusFields) =>
        match lookupProp statusFields "type" with
        | some (.str "idle") => .finished true ""
        | _ => .next st
      | _ => .next st
    else if event.type = "session.error" then
      let msg :=
        match lookupProp event.properties "error" with
        | some v => extractErrorMessage v
        | none => "unknown session error"
      .finished false msg
    else .next st

/-- One iteration of the stream-reading loop of `waitForCompletion`
(lines 2197-2281): any non-blank line refreshes `lastActivity` to `now`
*before* any event classification; `data: `-prefixed lines are decoded by
`parse` (modelling `json.Unmarshal`, an external library) and dispatched;
undecodable or unprefixed lines are dropped. -/
def processLine (parse : String → Option Event) (sessionID : String) (now : Nat)
    (st : TrackerState) (line : String) : StepResult :=
  let st1 := if goTrimSpace line ≠ "" then { st with lastActivity := now } else st
  if ("data: ".toList).isPrefixOf line.toList then
    match parse (String.mk (line.toList.drop 6)) with
    | none => .next st1
    | some event => dispatchEvent sessionID st1 event
  else .next st1

/-- A decode oracle under which every line parses to a bare heartbeat. -/
def heartbeatParse : String → Option Event :=
  fun _ => some ⟨"server.connected", []⟩

/-- C1 (code bug): a `data: ` line that decodes to a `server.`-prefixed event
still refreshes the last-activity timestamp from 0 to `now` — the refresh at
the top of the loop body runs before the `server.` skip, so heartbeats do
defer the inactivity timeout, contrary to the spec and to the code's own
comment (`don't count as activity`). -/
theorem C1_heartbeat_refreshes_activity :
    processLine heartbeatParse "sid" 100 ⟨false, "", 0⟩ "data: hb" =
      StepResult.next ⟨false, "", 100⟩ := by
  decide

/-- C7 fails as stated: an event whose `sessionID` property is present but is
not a JSON string (here the number 42, differing from the adopted id "abc")
is *not* skipped — a `session.idle` event with that property still terminates
the tracker with success. -/
theorem C7_counterexample :
    dispatchEvent "abc" ⟨false, "", 0⟩
        ⟨"session.idle", [("sessionID", JsonVal.num 42)]⟩ =
      StepResult.finished true "" ∧
    lookupProp [("sessionID", JsonVal.num 42)] "sessionID" = some (JsonVal.num 42) := by
  exact ⟨rfl, rfl⟩

/-- C7 (amended): an event whose properties carry a *string* `sessionID`
different from the adopted session identifier is skipped: the dispatch reads
on with the state unchanged, triggering no terminal state and no status
handling.  (A present non-string `sessionID` is not filtered.) -/
theorem C7_session_filter :
    ∀ (sessionID : String) (st : TrackerState) (event : Event) (sid : String),
      lookupProp event.properties "sessionID" = some (JsonVal.str sid) →
      sid ≠ sessionID →
      dispatchEvent sessionID st event = StepResult.next st := by
  intro sessionID st event sid hlook hne
  by_cases hserver : ("server.".toList).isPrefixOf (event.type).toList = true
  · simp only [dispatchEvent]
    rw [if_pos hserver]
  · simp [dispatchEvent, hserver, hlook, hne]

/-- Concrete instance of `C7_session_filter`: a `session.idle` event for a
different string session id is ignored. -/
theorem C7_session_filter_witness :
    dispatchEvent "abc" ⟨false, "", 0⟩
        ⟨"session.idle", [("sessionID", JsonVal.str "other")]⟩ =
      StepResult.next ⟨false, "", 0⟩ :=
  C7_session_filter "abc" ⟨false, "", 0⟩
    ⟨"session.idle", [("sessionID", JsonVal.str "other")]⟩ "other" rfl (by decide)

/-! ### Retry loop and schedulers (claims C3, C5) -/

/-- Verdict the environment (daemon, network, filesystem) produces for one
`runAgent` invocation: the success flag and error message of the returned
result.  Which of `runAgent`'s exit paths produced them is irrelevant to the
retry and scheduling logic. -/
structure RunOutcome where
  success : Bool
  error : String
deriving Repr, DecidableEq

/-- `runAgent` from `main.go` (lines 1984-2082), modelled at the level the
scheduler claims need.  The folder resolution (lines 1987-1992) and the fact
that the returned result always carries `folderPath` are from the source; the
eventual success flag and error message come from the `outcome` oracle, the
wall-clock-dependent `createTimestampFolder` name from the `fresh` oracle, and
`pnOf` stands for `parsePromptNumberFromFolder ∘ filepath.Base` (a regex
lookup).  `Duration` (wall-clock) is fixed at 0; no claim mentions it. -/
def runAgentM (pnOf : String → Int) (outcome : RunOutcome) (fresh : String)
    (prompt : String) (promptNumber : Int) (existingFolder : String) : EvalResult :=
  let folderPath := if existingFolder = "" then fresh else existingFolder
  let pn :=
    if existingFolder = "" then promptNumber
    else if promptNumber < 1 then pnOf existingFolder else promptNumber
  { Prompt := prompt, PromptNumber := pn, Folder := folderPath,
    Success := outcome.success, Error := outcome.error, Duration := 0 }

/-- The attempt loop of `runAgentWithRetry` (`main.go` lines 1968-1979).
`attempt` is the Go loop counter; `remaining` counts the attempts left after
the current one, so the loop returns unconditionally when it reaches 0 (Go's
`attempt == maxAttempts` disjunct).  `oc attempt` is the environment's verdict
for that attempt.  Besides the final result, the model records each driver
invocation as a pair (folder argument, result), oldest first. -/
def retryLoop (pnOf : String → Int) (oc : Nat → RunOutcome) (fresh : String)
    (prompt : String) (promptNumber : Int) :
    Nat → Nat → String → EvalResult × List (String × EvalResult)
  | attempt, 0, folder =>
    let result := runAgentM pnOf (oc attempt) fresh prompt promptNumber folder
    (result, [(folder, result)])
  | attempt, remaining + 1, folder =>
    let result := runAgentM pnOf (oc attempt) fresh prompt promptNumber folder
    if result.Success || !(isTransientEvalError result.Error) then (result, [(folder, result)])
    else
      let tail := retryLoop pnOf oc fresh prompt promptNumber (attempt + 1) remaining result.Folder
      (tail.1, (folder, result) :: tail.2)

/-- `runAgentWithRetry` from `main.go` (lines 1959-1982): `maxAttempts` is
`transientRetries + 1`, floored at 1 (`retries` is a Go `int`, so possibly
negative); the loop starts at attempt 1 on the caller's folder. -/
def runAgentWithRetryM (pnOf : String → Int) (oc : Nat → RunOutcome) (fresh : String)
    (prompt : String) (promptNumber : Int) (retries : Int) (existingFolder : String) :
    EvalResult × List (String × EvalResult) :=
  let maxAttempts : Int := if retries + 1 < 1 then 1 else retries + 1
  retryLoop pnOf oc fresh prompt promptNumber 1 (maxAttempts - 1).toNat existingFolder

/-- `strings.Index`-based tail extraction: everything after the first
occurrence of `needle`, `none` for Go's `-1`. -/
def afterFirst (needle : List Char) : List Char → Option (List Char)
  | [] => if needle = [] then some [] else none
  | c :: rest =>
    if needle.isPrefixOf (c :: rest) then some ((c :: rest).drop needle.length)
    else afterFirst needle rest

/-- `strings.Split(s, ", ")` — the only separator `isModelNotFoundError`
uses — as a greedy left-to-right split. -/
def splitCommaSpace : List Char → List (List Char)
  | [] => [[]]
  | ',' :: ' ' :: rest => [] :: splitCommaSpace rest
  | c :: rest =>
    match splitCommaSpace rest with
    | [] => [[c]]
    | f :: fs => (c :: f) :: fs

/-- `isModelNotFoundError` from `main.go` (lines 2343-2358): detect
`"Model not found"`, then comma-split the fragment after `"Did you mean: "`
(with a trailing `?` stripped) into trimmed suggestions. -/
def isModelNotFoundError (errMsg : String) : Bool × List String :=
  if !(strContains errMsg "Model not found") then (false, [])
  else
    match afterFirst ("Did you mean: ".toList) errMsg.toList with
    | none => (true, [])
    | some rest =>
      let unsuffixed := if rest.getLast? = some '?' then rest.dropLast else rest
      (true, (splitCommaSpace unsuffixed).map (fun f => goTrimSpace (String.mk f)))

/-- `EvalTask` from `main.go` (lines 1907-1911). -/
structure EvalTask where
  Prompt : String
  PromptNumber : Int
  Folder : String
deriving Repr, DecidableEq

/-- The Go zero value of `EvalTask`, used as a `getD` default. -/
def evalTaskZero : EvalTask :=
  ⟨"", 0, ""⟩

/-- `runAllEvalsParallel` from `main.go` (lines 1913-1931): one goroutine per
task writes its result into its own pre-allocated slot; tasks share nothing
but the results slice (each slot written exactly once under the mutex), so
the batch is the per-index map below.  Environment oracles are indexed by
task index (each task owns its daemon process and port). -/
def runParFrom (pnOf : String → Int) (oc : Nat → Nat → RunOutcome) (fresh : Nat → String)
    (retries : Int) : Nat → List EvalTask → List EvalResult
  | _, [] => []
  | index, task :: rest =>
    (runAgentWithRetryM pnOf (oc index) (fresh index)
        task.Prompt task.PromptNumber retries task.Folder).1 ::
      runParFrom pnOf oc fresh retries (index + 1) rest

/-- Entry point of the parallel scheduler model (index starts at 0). -/
def runAllEvalsParallelM (pnOf : String → Int) (oc : Nat → Nat → RunOutcome)
    (fresh : Nat → String) (retries : Int) (tasks : List EvalTask) : List EvalResult :=
  runParFrom pnOf oc fresh retries 0 tasks

/-- `runAllEvalsSequential` from `main.go` (lines 1933-1957).  `correct k cur
suggestions` models the interactive `promptModelCorrection` (chosen model and
aborted flag); run outcomes and fresh folder names are keyed by driver-call
number `k` (the corrected re-run is a separate call).  A declined correction
returns the pre-allocated slice: the already-run prefix followed by Go's
zero-value results for the abandoned tasks. -/
def runSeqFrom (pnOf : String → Int) (oc : Nat → Nat → RunOutcome) (fresh : Nat → String)
    (correct : Nat → String → List String → String × Bool) (retries : Int) :
    Nat → String → List EvalTask → List EvalResult
  | _, _, [] => []
  | k, currentModel, task :: rest =>
    let r := (runAgentWithRetryM pnOf (oc k) (fresh k)
      task.Prompt task.PromptNumber retries task.Folder).1
    if r.Success then r :: runSeqFrom pnOf oc fresh correct retries (k + 1) currentModel rest
    else if (isModelNotFoundError r.Error).1 then
      let choice := correct k currentModel (isModelNotFoundError r.Error).2
      if choice.2 ∨ choice.1 = "" then
        r :: rest.map (fun _ => evalResultZero)
      else
        let r2 := (runAgentWithRetryM pnOf (oc (k + 1)) (fresh (k + 1))
          task.Prompt task.PromptNumber retries task.Folder).1
        r2 :: runSeqFrom pnOf oc fresh correct retries (k + 2) choice.1 rest
    else r :: runSeqFrom pnOf oc fresh correct retries (k + 1) currentModel rest

/-- Entry point of the sequential scheduler model. -/
def runAllEvalsSequentialM (pnOf : String → Int) (oc : Nat → Nat → RunOutcome)
    (fresh : Nat → String) (correct : Nat → String → List String → String × Bool)
    (retries : Int) (tasks : List EvalTask) (model : String) : List EvalResult :=
  runSeqFrom pnOf oc fresh correct retries 0 model tasks

/-- The result of the retry loop always carries either the folder it was
started on or the environment's fresh folder name. -/
theorem retryLoop_folder (pnOf : String → Int) (oc : Nat → RunOutcome) (fresh prompt : String)
    (pn : Int) :
    ∀ (remaining attempt : Nat) (folder : String),
      (retryLoop pnOf oc fresh prompt pn attempt remaining folder).1.Folder = folder ∨
      (retryLoop pnOf oc fresh prompt pn attempt remaining folder).1.Folder = fresh := by
  intro remaining
  induction remaining with
  | zero =>
    intro attempt folder
    simp only [retryLoop]
    by_cases hf : folder = "" <;> simp [runAgentM, hf]
  | succ rem ih =>
    intro attempt folder
    simp only [retryLoop]
    by_cases hC : ((runAgentM pnOf (oc attempt) fresh prompt pn folder).Success ||
        !(isTransientEvalError (runAgentM pnOf (oc attempt) fresh prompt pn folder).Error)) = true
    · rw [if_pos hC]
      by_cases hf : folder = "" <;> simp [runAgentM, hf]
    · rw [if_neg hC]
      have hr : (runAgentM pnOf (oc attempt) fresh prompt pn folder).Folder = folder ∨
          (runAgentM pnOf (oc attempt) fresh prompt pn folder).Folder = fresh := by
        by_cases hf : folder = "" <;> simp [runAgentM, hf]
      rcases ih (attempt + 1) ((runAgentM pnOf (oc attempt) fresh prompt pn folder).Folder)
        with h1 | h1
      · rw [h1]
        exact hr
      · right
        exact h1

/-- Folder provenance for one `runAgentWithRetry` call. -/
theorem runAgentWithRetry_folder (pnOf : String → Int) (oc : Nat → RunOutcome)
    (fresh prompt : String) (pn retries : Int) (folder : String) :
    (runAgentWithRetryM pnOf oc fresh prompt pn retries folder).1.Folder = folder ∨
    (runAgentWithRetryM pnOf oc fresh prompt pn retries folder).1.Folder = fresh :=
  retryLoop_folder pnOf oc fresh prompt pn _ 1 folder

/-- A list of zero results yields the zero result at every index. -/
theorem getD_const_zero : ∀ (l : List EvalTask) (i : Nat),
    (l.map (fun _ => evalResultZero)).getD i evalResultZero = evalResultZero
  | [], _ => rfl
  | _ :: _, 0 => rfl
  | _ :: rest, i + 1 => getD_const_zero rest i

/-- Batch shape of the parallel scheduler, for an arbitrary starting index. -/
theorem runParFrom_spec (pnOf : String → Int) (oc : Nat → Nat → RunOutcome)
    (fresh : Nat → String) (retries : Int) :
    ∀ (tasks : List EvalTask) (idx0 : Nat),
      (runParFrom pnOf oc fresh retries idx0 tasks).length = tasks.length ∧
      ∀ i, i < tasks.length →
        ((runParFrom pnOf oc fresh retries idx0 tasks).getD i evalResultZero).Folder =
            (tasks.getD i evalTaskZero).Folder ∨
        ((runParFrom pnOf oc fresh retries idx0 tasks).getD i evalResultZero).Folder =
            fresh (idx0 + i) := by
  intro tasks
  induction tasks with
  | nil => intro idx0; exact ⟨rfl, fun i hi => absurd hi (by simp)⟩
  | cons task rest ih =>
    intro idx0
    constructor
    · simpa [runParFrom] using (ih (idx0 + 1)).1
    · intro i hi
      cases i with
      | zero =>
        simpa [runParFrom] using
          runAgentWithRetry_folder pnOf (oc idx0) (fresh idx0) task.Prompt
            task.PromptNumber retries task.Folder
      | succ j =>
        have hj : j < rest.length := by simpa using hi
        have := (ih (idx0 + 1)).2 j hj
        simpa [runParFrom, Nat.add_assoc, Nat.add_comm 1 j] using this

/-- Batch shape of the sequential scheduler: one result per task; each
executed task's folder is the given one or a fresh one; abandoned tasks keep
the zero result. -/
theorem runSeqFrom_spec (pnOf : String → Int) (oc : Nat → Nat → RunOutcome)
    (fresh : Nat → String) (correct : Nat → String → List String → String × Bool)
    (retries : Int) :
    ∀ (tasks : List EvalTask) (k : Nat) (model : String),
      (runSeqFrom pnOf oc fresh correct retries k model tasks).length = tasks.length ∧
      ∀ i, i < tasks.length →
        ((runSeqFrom pnOf oc fresh correct retries k model tasks).getD i evalResultZero).Folder =
            (tasks.getD i evalTaskZero).Folder ∨
        (∃ j, ((runSeqFrom pnOf oc fresh correct retries k model tasks).getD i
            evalResultZero).Folder = fresh j) ∨
        (runSeqFrom pnOf oc fresh correct retries k model tasks).getD i evalResultZero =
          evalResultZero := by
  intro tasks
  induction tasks with
  | nil => intro k model; exact ⟨rfl, fun i hi => absurd hi (by simp)⟩
  | cons task rest ih =>
    intro k model
    have hhead : ∀ kk,
        ((runAgentWithRetryM pnOf (oc kk) (fresh kk) task.Prompt task.PromptNumber retries
          task.Folder).1).Folder = task.Folder ∨
        (∃ j, ((runAgentWithRetryM pnOf (oc kk) (fresh kk) task.Prompt task.PromptNumber retries
          task.Folder).1).Folder = fresh j) := by
      intro kk
      rcases runAgentWithRetry_folder pnOf (oc kk) (fresh kk) task.Prompt task.PromptNumber
        retries task.Folder with h | h
      · exact Or.inl h
      · exact Or.inr ⟨kk, h⟩
    simp only [runSeqFrom]
    split
    · -- first run succeeded
      refine ⟨by simpa using (ih (k + 1) model).1, ?_⟩
      intro i hi
      cases i with
      | zero => simpa using (hhead k).imp id Or.inl
      | succ j =>
        have hj : j < rest.length := by simpa using hi
        simpa using (ih (k + 1) model).2 j hj
    · split
      · split
        · -- correction declined: abandoned tail
          refine ⟨by simp, ?_⟩
          intro i hi
          cases i with
          | zero => simpa using (hhead k).imp id Or.inl
          | succ j => simp [getD_const_zero]
        · -- corrected re-run, model override propagates
          refine ⟨by simpa using (ih (k + 2) _).1, ?_⟩
          intro i hi
          cases i with
          | zero => simpa using (hhead (k + 1)).imp id Or.inl
          | succ j =>
            have hj : j < rest.length := by simpa using hi
            simpa using (ih (k + 2) _).2 j hj
      · -- non-model-not-found failure
        refine ⟨by simpa using (ih (k + 1) model).1, ?_⟩
        intro i hi
        cases i with
        | zero => simpa using (hhead k).imp id Or.inl
        | succ j =>
          have hj : j < rest.length := by simpa using hi
          simpa using (ih (k + 1) model).2 j hj

/-- C5 fails as stated: in a sequential run where the first task fails with a
model-not-found error and the user declines the correction, the abandoned
second task keeps the pre-allocated zero result, whose folder `""` is neither
the task's given folder `"F"` nor the only fresh folder name `"G"`. -/
theorem C5_counterexample :
    (runAllEvalsSequentialM (fun _ => 0) (fun _ _ => ⟨false, "Model not found: x"⟩)
        (fun _ => "G") (fun _ _ _ => ("", true)) 0
        [⟨"p", 1, ""⟩, ⟨"q", 2, "F"⟩] "m").length = 2 ∧
    ((runAllEvalsSequentialM (fun _ => 0) (fun _ _ => ⟨false, "Model not found: x"⟩)
        (fun _ => "G") (fun _ _ _ => ("", true)) 0
        [⟨"p", 1, ""⟩, ⟨"q", 2, "F"⟩] "m").getD 1 evalResultZero).Folder = "" ∧
    ("" : String) ≠ "F" ∧ ("" : String) ≠ "G" := by
  exact ⟨by decide, by decide, by decide, by decide⟩

/-- C5 (amended): every batch — parallel or sequential — returns exactly one
result per task; in parallel mode, and for every task the sequential mode
actually executes, the result's folder is the task's given folder or a fresh
folder; a sequential task abandoned after a declined model correction keeps
the zero-value result (empty folder). -/
theorem C5_scheduler_results :
    (∀ (pnOf : String → Int) (oc : Nat → Nat → RunOutcome) (fresh : Nat → String)
        (retries : Int) (tasks : List EvalTask),
      (runAllEvalsParallelM pnOf oc fresh retries tasks).length = tasks.length ∧
      ∀ i, i < tasks.length →
        ((runAllEvalsParallelM pnOf oc fresh retries tasks).getD i evalResultZero).Folder =
            (tasks.getD i evalTaskZero).Folder ∨
        ((runAllEvalsParallelM pnOf oc fresh retries tasks).getD i evalResultZero).Folder =
            fresh i) ∧
    (∀ (pnOf : String → Int) (oc : Nat → Nat → RunOutcome) (fresh : Nat → String)
        (correct : Nat → String → List String → String × Bool) (retries : Int)
        (tasks : List EvalTask) (model : String),
      (runAllEvalsSequentialM pnOf oc fresh correct retries tasks model).length =
        tasks.length ∧
      ∀ i, i < tasks.length →
        ((runAllEvalsSequentialM pnOf oc fresh correct retries tasks model).getD i
            evalResultZero).Folder = (tasks.getD i evalTaskZero).Folder ∨
        (∃ j, ((runAllEvalsSequentialM pnOf oc fresh correct retries tasks model).getD i
            evalResultZero).Folder = fresh j) ∨
        (runAllEvalsSequentialM pnOf oc fresh correct retries tasks model).getD i
            evalResultZero = evalResultZero) := by
  constructor
  · intro pnOf oc fresh retries tasks
    have h := runParFrom_spec pnOf oc fresh retries tasks 0
    refine ⟨h.1, fun i hi => ?_⟩
    simpa using h.2 i hi
  · intro pnOf oc fresh correct retries tasks model
    exact runSeqFrom_spec pnOf oc fresh correct retries tasks 0 model

/-- Concrete instance of `C5_scheduler_results`: a one-task parallel batch
whose task has no folder gets the fresh folder. -/
theorem C5_scheduler_results_witness :
    ((runAllEvalsParallelM (fun _ => 0) (fun _ _ => ⟨true, ""⟩) (fun _ => "G") 1
        [⟨"p", 1, ""⟩]).getD 0 evalResultZero).Folder =
        (([⟨"p", 1, ""⟩] : List EvalTask).getD 0 evalTaskZero).Folder ∨
    ((runAllEvalsParallelM (fun _ => 0) (fun _ _ => ⟨true, ""⟩) (fun _ => "G") 1
        [⟨"p", 1, ""⟩]).getD 0 evalResultZero).Folder = (fun _ : Nat => "G") 0 :=
  (C5_scheduler_results.1 (fun _ => 0) (fun _ _ => ⟨true, ""⟩) (fun _ => "G") 1
    [⟨"p", 1, ""⟩]).2 0 (by decide)

/-- `getLast?` of a cons with a nonempty tail is the tail's. -/
theorem getLast?_cons_ne {α : Type} (a : α) (l : List α) (h : l ≠ []) :
    (a :: l).getLast? = l.getLast? := by
  cases l with
  | nil => exact absurd rfl h
  | cons b t => exact List.getLast?_cons_cons

/-- Full behaviour of the retry loop: at least one and at most
`remaining + 1` attempts; the first attempt runs on the starting folder; each
later attempt runs on the folder produced by the previous one; every
non-final attempt was a transient failure; the returned result is the final
attempt's; and the loop only stops early on success or a non-transient
error. -/
theorem retryLoop_spec (pnOf : String → Int) (oc : Nat → RunOutcome) (fresh prompt : String)
    (pn : Int) :
    ∀ (remaining attempt : Nat) (folder : String),
      1 ≤ (retryLoop pnOf oc fresh prompt pn attempt remaining folder).2.length ∧
      (retryLoop pnOf oc fresh prompt pn attempt remaining folder).2.length ≤ remaining + 1 ∧
      (retryLoop pnOf oc fresh prompt pn attempt remaining folder).2.head?.map Prod.fst =
        some folder ∧
      List.Chain' (fun a b => b.1 = a.2.Folder)
        (retryLoop pnOf oc fresh prompt pn attempt remaining folder).2 ∧
      (∀ p ∈ (retryLoop pnOf oc fresh prompt pn attempt remaining folder).2.dropLast,
        p.2.Success = false ∧ isTransientEvalError p.2.Error = true) ∧
      ((retryLoop pnOf oc fresh prompt pn attempt remaining folder).2.map Prod.snd).getLast? =
        some (retryLoop pnOf oc fresh prompt pn attempt remaining folder).1 ∧
      (∀ p, (retryLoop pnOf oc fresh prompt pn attempt remaining folder).2.getLast? = some p →
        p.2.Success = true ∨ isTransientEvalError p.2.Error = false ∨
        (retryLoop pnOf oc fresh prompt pn attempt remaining folder).2.length =
          remaining + 1) := by
  intro remaining
  induction remaining with
  | zero =>
    intro attempt folder
    refine ⟨by simp [retryLoop], by simp [retryLoop], by simp [retryLoop],
      by simp [retryLoop], by simp [retryLoop], by simp [retryLoop], ?_⟩
    intro p hp
    right; right
    simp [retryLoop]
  | succ rem ih =>
    intro attempt folder
    simp only [retryLoop]
    by_cases hC : ((runAgentM pnOf (oc attempt) fresh prompt pn folder).Success ||
        !(isTransientEvalError (runAgentM pnOf (oc attempt) fresh prompt pn folder).Error)) =
        true
    · rw [if_pos hC]
      refine ⟨by simp, by simp, by simp, by simp, by simp, by simp, ?_⟩
      intro p hp
      simp only [List.getLast?_singleton, Option.some.injEq] at hp
      rcases Bool.or_eq_true_iff.mp hC with h | h
      · left; rw [← hp]; exact h
      · right; left; rw [← hp]; simpa using h
    · rw [if_neg hC]
      have hfail : (runAgentM pnOf (oc attempt) fresh prompt pn folder).Success = false ∧
          isTransientEvalError (runAgentM pnOf (oc attempt) fresh prompt pn folder).Error =
            true := by
        have hor := Bool.eq_false_iff.mpr hC
        obtain ⟨h1, h2⟩ := Bool.or_eq_false_iff.mp hor
        exact ⟨h1, by simpa using h2⟩
      obtain ⟨ih1, ih2, ih3, ih4, ih5, ih6, ih7⟩ :=
        ih (attempt + 1) (runAgentM pnOf (oc attempt) fresh prompt pn folder).Folder
      have htne :
          (retryLoop pnOf oc fresh prompt pn (attempt + 1) rem
            (runAgentM pnOf (oc attempt) fresh prompt pn folder).Folder).2 ≠ [] := by
        intro hnil
        rw [hnil] at ih1
        simp at ih1
      refine ⟨by simp, ?_, by simp, ?_, ?_, ?_, ?_⟩
      · simpa using Nat.succ_le_succ ih2
      · rw [List.chain'_cons']
        refine ⟨?_, ih4⟩
        intro b hb
        rw [Option.mem_def] at hb
        rw [hb] at ih3
        simpa using ih3
      · intro p hp
        rw [List.dropLast_cons_of_ne_nil htne] at hp
        rcases List.mem_cons.mp hp with hp | hp
        · rw [hp]; exact hfail
        · exact ih5 p hp
      · rw [List.map_cons, getLast?_cons_ne _ _ (by simpa using htne)]
        exact ih6
      · intro p hp
        rw [show ((retryLoop pnOf oc fresh prompt pn (attempt + 1) rem
            (runAgentM pnOf (oc attempt) fresh prompt pn folder).Folder).1,
            (folder, runAgentM pnOf (oc attempt) fresh prompt pn folder) ::
            (retryLoop pnOf oc fresh prompt pn (attempt + 1) rem
              (runAgentM pnOf (oc attempt) fresh prompt pn folder).Folder).2).2 =
          (folder, runAgentM pnOf (oc attempt) fresh prompt pn folder) ::
            (retryLoop pnOf oc fresh prompt pn (attempt + 1) rem
              (runAgentM pnOf (oc attempt) fresh prompt pn folder).Folder).2 from rfl,
          getLast?_cons_ne _ _ htne] at hp
        rcases ih7 p hp with h | h | h
        · exact Or.inl h
        · exact Or.inr (Or.inl h)
        · right; right
          simp [h]

/-- C3: with a non-negative retry budget, `runAgentWithRetry` invokes the
driver between 1 and `1 + transient_retries` times; the first attempt runs on
the caller's folder and every later attempt on the folder produced by the
previous one; every non-final attempt failed transiently; the returned result
is the final attempt's; and the loop stops early only on success or a
non-transient error (otherwise it used the whole budget). -/
theorem C3_retry_policy (pnOf : String → Int) (oc : Nat → RunOutcome) (fresh prompt : String)
    (promptNumber retries : Int) (existingFolder : String) (h : 0 ≤ retries) :
    1 ≤ (runAgentWithRetryM pnOf oc fresh prompt promptNumber retries existingFolder).2.length ∧
    ((runAgentWithRetryM pnOf oc fresh prompt promptNumber retries
      existingFolder).2.length : Int) ≤ 1 + retries ∧
    (runAgentWithRetryM pnOf oc fresh prompt promptNumber retries
      existingFolder).2.head?.map Prod.fst = some existingFolder ∧
    List.Chain' (fun a b => b.1 = a.2.Folder)
      (runAgentWithRetryM pnOf oc fresh prompt promptNumber retries existingFolder).2 ∧
    (∀ p ∈ (runAgentWithRetryM pnOf oc fresh prompt promptNumber retries
        existingFolder).2.dropLast,
      p.2.Success = false ∧ isTransientEvalError p.2.Error = true) ∧
    ((runAgentWithRetryM pnOf oc fresh prompt promptNumber retries existingFolder).2.map
      Prod.snd).getLast? =
      some (runAgentWithRetryM pnOf oc fresh prompt promptNumber retries existingFolder).1 ∧
    (∀ p, (runAgentWithRetryM pnOf oc fresh prompt promptNumber retries
        existingFolder).2.getLast? = some p →
      p.2.Success = true ∨ isTransientEvalError p.2.Error = false ∨
      ((runAgentWithRetryM pnOf oc fresh prompt promptNumber retries
        existingFolder).2.length : Int) = 1 + retries) := by
  simp only [runAgentWithRetryM]
  have hrem : ((if retries + 1 < 1 then (1 : Int) else retries + 1) - 1).toNat =
      retries.toNat := by
    rw [if_neg (by omega)]
    omega
  rw [hrem]
  obtain ⟨s1, s2, s3, s4, s5, s6, s7⟩ :=
    retryLoop_spec pnOf oc fresh prompt promptNumber retries.toNat 1 existingFolder
  refine ⟨s1, by omega, s3, s4, s5, s6, ?_⟩
  intro p hp
  rcases s7 p hp with h1 | h1 | h1
  · exact Or.inl h1
  · exact Or.inr (Or.inl h1)
  · right; right
    omega

/-- Concrete instance of `C3_retry_policy`: a succeeding first attempt with
one allowed retry makes at least one driver call. -/
theorem C3_retry_policy_witness :
    1 ≤ (runAgentWithRetryM (fun _ => 0) (fun _ => ⟨true, ""⟩) "G" "p" 1 1 "").2.length :=
  (C3_retry_policy (fun _ => 0) (fun _ => ⟨true, ""⟩) "G" "p" 1 1 "" (by decide)).1

end HighEvals
